import Mathlib

/-!
Verification of the `emoji-count` Discord bot (`src/index.js`), a single-file
program whose one slash command `/export-reactions` parses a message
reference, paginates through the reacting users of each reaction group, and
replies with a CSV attachment (or one of a fixed set of error messages).

The JavaScript source is shallowly embedded below:

* `parseMessageRef` models the function of the same name: a leftmost search
  for the regex `discord\.com\/channels\/(\d+)\/(\d+)\/(\d+)` with a bare-ID
  fallback.  `matchAt` tries the pattern at one position (each `(\d+)` is a
  maximal nonempty digit run, which is exactly what the greedy regex yields
  here since backtracking a digit run can never make the following `/`
  match), and `scanMatch` scans left to right for the first position where
  `matchAt` succeeds, as `String.prototype.match` does.

* The `InteractionCreate` handler is `handleInteraction`.  Network
  collaborators are parameters: `fetchMessage` for `channel.messages.fetch`
  and `fetchUsers` for `reaction.users.fetch`.  The `while (true)` pagination
  loop is `paginateG`, written with explicit fuel (`.fuelOut` models the
  loop not terminating); it returns the list of fetched batches, so that the
  number of fetch calls and the appended rows are both visible.  The
  concrete Discord behaviour of `reaction.users.fetch({ limit: 100, after })`
  over a fixed finite collection is `fetchUsersPage`: the first 100 users of
  the collection strictly after the cursor.
-/

/-- A reacting user as the handler reads it: `user.username`,
`user.discriminator`, `user.id`. -/
structure User where
  username : String
  discriminator : String
  id : String
deriving DecidableEq, Repr

/-- The `reaction.emoji` object: `name` and `id` may each be absent
(`null`), which the source guards with `?.` and `??`. -/
structure Emoji where
  name : Option String
  id : Option String
deriving DecidableEq, Repr

/-- One reaction group of the message: its emoji and the full ordered
collection of reacting users that the paginated `reaction.users.fetch`
walks through. -/
structure Reaction where
  emoji : Emoji
  users : List User
deriving DecidableEq, Repr

/-- The fetched message, reduced to what the handler uses:
`message.reactions.cache` in iteration order. -/
structure Msg where
  reactions : List Reaction
deriving DecidableEq, Repr

/-- Result of `parseMessageRef`: `{ guildId, channelId, messageId }`, the
first two absent in the bare-ID fallback. -/
structure MessageRef where
  guildId : Option String
  channelId : Option String
  messageId : String
deriving DecidableEq, Repr

/-- Drop a literal character sequence from the front of a list, failing if
it is not there (the literal part `discord\.com\/channels\/` of the regex). -/
def dropLit : List Char → List Char → Option (List Char)
  | [], l => some l
  | _ :: _, [] => none
  | p :: ps, c :: cs => if c = p then dropLit ps cs else none

/-- The literal head of the regex, `discord\.com\/channels\/`, as its
character sequence. -/
def urlLit : List Char :=
  ['d', 'i', 's', 'c', 'o', 'r', 'd', '.', 'c', 'o', 'm', '/',
   'c', 'h', 'a', 'n', 'n', 'e', 'l', 's', '/']

/-- Try the regex `discord\.com\/channels\/(\d+)\/(\d+)\/(\d+)` anchored at
the start of `l`; on success return the three digit-run captures.  Each
`(\d+)` is the maximal nonempty digit run starting there (the only run the
greedy regex can take, since shortening it can never make the following `/`
match). -/
def matchAt (l : List Char) : Option (List Char × List Char × List Char) :=
  match dropLit urlLit l with
  | none => none
  | some r₁ =>
    if r₁.takeWhile Char.isDigit = [] then none else
    match r₁.dropWhile Char.isDigit with
    | '/' :: r₂ =>
      if r₂.takeWhile Char.isDigit = [] then none else
      match r₂.dropWhile Char.isDigit with
      | '/' :: r₃ =>
        if r₃.takeWhile Char.isDigit = [] then none else
        some (r₁.takeWhile Char.isDigit, r₂.takeWhile Char.isDigit, r₃.takeWhile Char.isDigit)
      | _ => none
    | _ => none

/-- Leftmost regex search, as `input.match(...)` performs: try `matchAt` at
every position from the left and keep the first success. -/
def scanMatch : List Char → Option (List Char × List Char × List Char)
  | [] => matchAt []
  | c :: cs =>
    match matchAt (c :: cs) with
    | some t => some t
    | none => scanMatch cs

/-- Embeds `parseMessageRef` (src/index.js lines 78-82): on a regex match
return the three captures as guild, channel and message IDs; otherwise treat
the whole input as a bare message ID. -/
def parseMessageRef (input : String) : MessageRef :=
  match scanMatch input.toList with
  | some (g, c, m) =>
    { guildId := some g.asString, channelId := some c.asString, messageId := m.asString }
  | none => { guildId := none, channelId := none, messageId := input }

/-- Embeds the `header` constant (line 118):
`includeIds ? "Emoji,User,User ID\n" : "Emoji,User\n"`. -/
def header (includeIds : Bool) : String :=
  if includeIds then "Emoji,User,User ID\n" else "Emoji,User\n"

/-- Embeds `addLine` (lines 121-124): one CSV row
`emoji,username#discriminator[,id]` with trailing newline. -/
def addLine (includeIds : Bool) (emoji : String) (user : User) : String :=
  let tag := user.username ++ "#" ++ user.discriminator
  if includeIds then emoji ++ "," ++ tag ++ "," ++ user.id ++ "\n"
  else emoji ++ "," ++ tag ++ "\n"

/-- Embeds the `emojiLabel` computation (lines 128-130):
`reaction.emoji?.id ? name + ":" + id : (reaction.emoji?.name ?? "unknown")`.
A present `id` with an absent `name` renders the JavaScript template-literal
string `"null"` for the name. -/
def emojiLabel (e : Emoji) : String :=
  match e.id with
  | some i => (e.name.getD "null") ++ ":" ++ i
  | none =>
    match e.name with
    | some n => n
    | none => "unknown"

/-- The concrete semantics of `reaction.users.fetch({ limit: 100, after })`
over a fixed finite user collection `coll`: the first 100 users of `coll`
strictly after the one whose ID is the cursor (all of the first 100 when the
cursor is unset). -/
def fetchUsersPage (coll : List User) (after : Option String) : List User :=
  match after with
  | none => coll.take 100
  | some i => (((coll.dropWhile (fun u => u.id ≠ i)).drop 1).take 100)

/-- Outcome of the pagination loop: fuel ran out (the loop would not have
terminated within `fuel` iterations), a fetch threw, or the ordered list of
fetched batches. -/
inductive PagOut where
  | fuelOut
  | fetchFailed
  | ok (batches : List (List User))
deriving DecidableEq, Repr

/-- Embeds the `while (true)` pagination loop (lines 132-140) for one
reaction group, with the fetch call abstracted.  Each iteration fetches a
batch after the cursor `lastId`; an empty batch or one of fewer than 100
users ends the loop (both breaks of the source fetch exactly one more
batch); otherwise the cursor becomes the ID of the last user of the batch
(`[...batch.keys()].pop()`) and the loop repeats. -/
def paginateG (fetch : Option String → Except Unit (List User)) :
    Option String → Nat → PagOut
  | _, 0 => .fuelOut
  | lastId, fuel + 1 =>
    match fetch lastId with
    | .error _ => .fetchFailed
    | .ok batch =>
      if batch.length < 100 then .ok [batch]
      else
        match paginateG fetch ((batch.getLast?).map User.id) fuel with
        | .fuelOut => .fuelOut
        | .fetchFailed => .fetchFailed
        | .ok rest => .ok (batch :: rest)

/-- The fetch collaborator that never throws and serves pages from the
fixed user collection of the group. -/
def pureFetch (r : Reaction) (after : Option String) : Except Unit (List User) :=
  .ok (fetchUsersPage r.users after)

/-- The rows a reaction group contributes to the CSV buffer: one `addLine`
row per user, in order. -/
def groupRows (includeIds : Bool) (label : String) (users : List User) : String :=
  String.join (users.map (addLine includeIds label))

/-- Outcome of the try-block around the export (lines 126-147): the
pagination of some group did not terminate within the fuel, a fetch threw
(the catch branch), or the final CSV buffer. -/
inductive ExpOut where
  | hang
  | err
  | ok (csv : String)
deriving DecidableEq, Repr

/-- Embeds the `for (const [, reaction] of message.reactions.cache)` loop
(lines 127-141): drain each group in order, appending its rows (labelled
with its `emojiLabel`) to the growing CSV buffer `csv`; any fetch error
aborts the whole loop. -/
def exportLoop (fetchUsers : Reaction → Option String → Except Unit (List User))
    (fuel : Nat) (includeIds : Bool) : List Reaction → String → ExpOut
  | [], csv => .ok csv
  | r :: rs, csv =>
    match paginateG (fetchUsers r) none fuel with
    | .fuelOut => .hang
    | .fetchFailed => .err
    | .ok batches =>
      exportLoop fetchUsers fuel includeIds rs
        (csv ++ groupRows includeIds (emojiLabel r.emoji) batches.flatten)

/-- The reply messages of the source, verbatim. -/
def notInServerMsg : String := "❌ Use this command inside a server."

/-- Reply when neither a channel option nor a URL-derived channel ID exists. -/
def missingChannelMsg : String := "❌ Provide a channel when using a bare message ID."

/-- Reply when the URL-derived channel ID is not in the guild channel cache. -/
def cannotAccessChannelMsg : String := "❌ I cannot access that channel."

/-- Reply when `channel.messages.fetch` throws. -/
def messageFetchFailedMsg : String :=
  "❌ Could not fetch that message. Check the channel, ID/URL, and my permissions."

/-- Reply when a `reaction.users.fetch` throws during pagination. -/
def reactionFetchFailedMsg : String :=
  "❌ Failed to fetch reaction users. Ensure I have **View Channel**, **Read Message History**, and **Read Reactions** permissions."

/-- Reply when the final CSV buffer still equals the header. -/
def noReactionsMsg : String := "ℹ️ That message has no reactions to export."

/-- Content of the final reply carrying the attachment. -/
def exportCompleteMsg : String := "✅ Export complete. Here’s your file:"

/-- The single user-visible reply of one invocation: the immediate ephemeral
rejection, an edited text reply, or the edited reply with the CSV file
attached. -/
inductive Reply where
  | ephemeral (content : String)
  | edited (content : String)
  | file (content : String) (filename : String) (body : String)
deriving DecidableEq, Repr

/-- Handler outcome: `hang` when the pagination fuel runs out (the source
loop would still be running), otherwise the reply sent. -/
inductive HandlerOut where
  | hang
  | reply (r : Reply)
deriving DecidableEq, Repr

/-- The options of one `/export-reactions` invocation, plus the
`interaction.inGuild()` flag.  The channel option holds the selected channel
ID. -/
structure Interaction where
  inGuild : Bool
  message : String
  channelOpt : Option String
  includeUserIds : Option Bool
deriving DecidableEq, Repr

/-- Embeds the `InteractionCreate` handler (lines 85-155).  `cache` is the
guild channel cache (`interaction.guild.channels.cache`) as the list of
channel IDs it contains; `fetchMessage` and `fetchUsers` are the network
collaborators; `fuel` bounds each pagination loop. -/
def handleInteraction (cache : List String)
    (fetchMessage : String → String → Except Unit Msg)
    (fetchUsers : Reaction → Option String → Except Unit (List User))
    (fuel : Nat) (i : Interaction) : HandlerOut :=
  if i.inGuild = false then .reply (.ephemeral notInServerMsg) else
  let includeIds := i.includeUserIds.getD true
  let ref := parseMessageRef i.message
  let chE : Except String String :=
    match i.channelOpt with
    | some ch => .ok ch
    | none =>
      match ref.channelId with
      | none => .error missingChannelMsg
      | some cid => if cid ∈ cache then .ok cid else .error cannotAccessChannelMsg
  match chE with
  | .error e => .reply (.edited e)
  | .ok ch =>
    match fetchMessage ch ref.messageId with
    | .error _ => .reply (.edited messageFetchFailedMsg)
    | .ok msg =>
      match exportLoop fetchUsers fuel includeIds msg.reactions (header includeIds) with
      | .hang => .hang
      | .err => .reply (.edited reactionFetchFailedMsg)
      | .ok csv =>
        if csv = header includeIds then .reply (.edited noReactionsMsg)
        else .reply (.file exportCompleteMsg "reactions.csv" csv)

/-- A concrete collection of 150 users with pairwise-distinct IDs, used to
exercise the two-page pagination scenario. -/
def users150 : List User :=
  (List.range 150).map (fun n => { username := "user", discriminator := "0001", id := toString n })

/-- A reaction group with 150 distinct reactors. -/
def r150 : Reaction := { emoji := { name := some "🎉", id := none }, users := users150 }

/-- A reaction group: 🎉 with two reactors. -/
def partyReaction : Reaction :=
  { emoji := { name := some "🎉", id := none },
    users := [{ username := "alice", discriminator := "0001", id := "1" },
              { username := "bob", discriminator := "0002", id := "2" }] }

/-- A reaction group: 👍 with three reactors. -/
def thumbsReaction : Reaction :=
  { emoji := { name := some "👍", id := none },
    users := [{ username := "carol", discriminator := "0003", id := "3" },
              { username := "dave", discriminator := "0004", id := "4" },
              { username := "erin", discriminator := "0005", id := "5" }] }

/-! ### Helper lemmas about the regex model -/

theorem dropLit_self : ∀ (p r : List Char), dropLit p (p ++ r) = some r
  | [], _ => rfl
  | c :: ps, r => by simp [dropLit, dropLit_self ps r]

theorem matchAt_ne_head {c : Char} (h : c ≠ 'd') (cs : List Char) :
    matchAt (c :: cs) = none := by
  simp [matchAt, urlLit, dropLit, h]

theorem scanMatch_cons_of_ne {c : Char} (h : c ≠ 'd') (cs : List Char) :
    scanMatch (c :: cs) = scanMatch cs := by
  simp [scanMatch, matchAt_ne_head h]

theorem scanMatch_of_matchAt {l : List Char} {t : List Char × List Char × List Char}
    (h : matchAt l = some t) : scanMatch l = some t := by
  cases l with
  | nil => simpa [scanMatch] using h
  | cons c cs => simp [scanMatch, h]

theorem takeWhile_append_of_neg {α : Type} {p : α → Bool} :
    ∀ (l : List α) (y : α) (r : List α), (∀ c ∈ l, p c = true) → p y = false →
      (l ++ y :: r).takeWhile p = l
  | [], y, r, _, hy => by simp [List.takeWhile_cons, hy]
  | c :: cs, y, r, hl, hy => by
    have hc : p c = true := hl c (by simp)
    have ih := takeWhile_append_of_neg cs y r (fun d hd => hl d (by simp [hd])) hy
    simp [List.takeWhile_cons, hc, ih]

theorem dropWhile_append_of_neg {α : Type} {p : α → Bool} :
    ∀ (l : List α) (y : α) (r : List α), (∀ c ∈ l, p c = true) → p y = false →
      (l ++ y :: r).dropWhile p = y :: r
  | [], y, r, _, hy => by simp [List.dropWhile_cons, hy]
  | c :: cs, y, r, hl, hy => by
    have hc : p c = true := hl c (by simp)
    have ih := dropWhile_append_of_neg cs y r (fun d hd => hl d (by simp [hd])) hy
    simp [List.dropWhile_cons, hc, ih]

theorem matchAt_valid (gl cl ml : List Char)
    (hg : gl ≠ []) (hc : cl ≠ []) (hm : ml ≠ [])
    (hgd : ∀ c ∈ gl, c.isDigit = true) (hcd : ∀ c ∈ cl, c.isDigit = true)
    (hmd : ∀ c ∈ ml, c.isDigit = true) :
    matchAt (urlLit ++ (gl ++ '/' :: (cl ++ '/' :: ml))) = some (gl, cl, ml) := by
  have hslash : ('/').isDigit = false := by decide
  have h1 := dropLit_self urlLit (gl ++ '/' :: (cl ++ '/' :: ml))
  simp [matchAt, h1, takeWhile_append_of_neg gl '/' _ hgd hslash,
    dropWhile_append_of_neg gl '/' _ hgd hslash,
    takeWhile_append_of_neg cl '/' ml hcd hslash,
    dropWhile_append_of_neg cl '/' ml hcd hslash,
    List.takeWhile_eq_self_iff.mpr hmd, hg, hc, hm]

theorem scanMatch_none_of_digits :
    ∀ l : List Char, (∀ c ∈ l, c.isDigit = true) → scanMatch l = none
  | [], _ => by simp [scanMatch, matchAt, dropLit, urlLit]
  | c :: cs, h => by
    have hc : c ≠ 'd' := by
      intro hcd
      have := h c (by simp)
      rw [hcd] at this
      simp at this
    rw [scanMatch_cons_of_ne hc]
    exact scanMatch_none_of_digits cs (fun d hd => h d (by simp [hd]))

theorem toList_append (a b : String) : (a ++ b).toList = a.toList ++ b.toList :=
  String.data_append a b

theorem asString_data (l : List Char) : l.asString.data = l := rfl

/-! ### Claim theorems about parsing and formatting -/

/-- C3: for every valid platform message URL
`https://discord.com/channels/<guild>/<channel>/<message>` (three nonempty
numeric segments), `parseMessageRef` returns exactly the record whose
`guildId`, `channelId` and `messageId` are those three segments; and for a
bare numeric string, it returns the record with only `messageId`, equal to
that string. -/
theorem parseMessageRef_spec :
    (∀ gl cl ml : List Char, gl ≠ [] → cl ≠ [] → ml ≠ [] →
      (∀ c ∈ gl, c.isDigit = true) → (∀ c ∈ cl, c.isDigit = true) →
      (∀ c ∈ ml, c.isDigit = true) →
      parseMessageRef ("https://discord.com/channels/" ++ gl.asString ++ "/" ++ cl.asString
          ++ "/" ++ ml.asString)
        = ⟨some gl.asString, some cl.asString, ml.asString⟩) ∧
    (∀ s : String, (∀ c ∈ s.toList, c.isDigit = true) →
      parseMessageRef s = ⟨none, none, s⟩) := by
  constructor
  · intro gl cl ml hg hc hm hgd hcd hmd
    have hpre : "https://discord.com/channels/".toList
        = 'h' :: 't' :: 't' :: 'p' :: 's' :: ':' :: '/' :: '/' :: urlLit := by decide
    have hslash : "/".toList = ['/'] := by decide
    have hdata : ("https://discord.com/channels/" ++ gl.asString ++ "/" ++ cl.asString
        ++ "/" ++ ml.asString).toList
        = 'h' :: 't' :: 't' :: 'p' :: 's' :: ':' :: '/' :: '/' ::
            (urlLit ++ (gl ++ '/' :: (cl ++ '/' :: ml))) := by
      simp [toList_append, hpre, hslash, asString_data, List.toList_asString, urlLit]
    unfold parseMessageRef
    rw [hdata]
    rw [scanMatch_cons_of_ne (by decide), scanMatch_cons_of_ne (by decide),
      scanMatch_cons_of_ne (by decide), scanMatch_cons_of_ne (by decide),
      scanMatch_cons_of_ne (by decide), scanMatch_cons_of_ne (by decide),
      scanMatch_cons_of_ne (by decide), scanMatch_cons_of_ne (by decide)]
    rw [scanMatch_of_matchAt (matchAt_valid gl cl ml hg hc hm hgd hcd hmd)]
  · intro s hs
    unfold parseMessageRef
    rw [scanMatch_none_of_digits s.toList hs]

/-- Witness for C3: the theorem instantiated at the concrete URL
`https://discord.com/channels/123/456/789` and at the bare numeric string
`42`. -/
theorem parseMessageRef_spec_witness :
    parseMessageRef "https://discord.com/channels/123/456/789"
      = ⟨some "123", some "456", "789"⟩ ∧
    parseMessageRef "42" = ⟨none, none, "42"⟩ := by
  constructor
  · have h := parseMessageRef_spec.1 ['1', '2', '3'] ['4', '5', '6'] ['7', '8', '9']
      (by decide) (by decide) (by decide) (by decide) (by decide) (by decide)
    have heq : "https://discord.com/channels/" ++ (['1', '2', '3'] : List Char).asString ++ "/"
        ++ (['4', '5', '6'] : List Char).asString ++ "/" ++ (['7', '8', '9'] : List Char).asString
        = "https://discord.com/channels/123/456/789" := by decide
    rw [heq] at h
    simpa using h
  · exact parseMessageRef_spec.2 "42" (by decide)

/-- C9: `parseMessageRef` is total: every input string yields a record whose
`messageId` is present — the third regex capture when the leftmost search
succeeds, and otherwise (any other string whatsoever, with no validation)
the verbatim input with no guild or channel ID. -/
theorem parseMessageRef_total (s : String) :
    (∃ g c m, scanMatch s.toList = some (g, c, m) ∧
      parseMessageRef s = ⟨some g.asString, some c.asString, m.asString⟩) ∨
    (scanMatch s.toList = none ∧ parseMessageRef s = ⟨none, none, s⟩) := by
  unfold parseMessageRef
  cases h : scanMatch s.toList with
  | none => exact Or.inr ⟨rfl, rfl⟩
  | some t =>
    obtain ⟨g, c, m⟩ := t
    exact Or.inl ⟨g, c, m, rfl, rfl⟩

/-- C5: the CSV header row seeded into the buffer is `Emoji,User,User ID`
when the `include_user_ids` option is `true` or absent (the source defaults
it with `?? true`), and `Emoji,User` when it is `false`. -/
theorem header_of_option (o : Option Bool) :
    header (o.getD true)
      = if o = some false then "Emoji,User\n" else "Emoji,User,User ID\n" := by
  cases o with
  | none => decide
  | some b => cases b <;> decide

/-- C6: the emoji label is `name:id` when the emoji has a platform-assigned
ID, else the plain name when resolvable, else the literal `unknown`; and for
the custom emoji named `partyblob` with ID `999`, every CSV row produced for
that group starts with the label `partyblob:999` followed by the comma. -/
theorem emojiLabel_spec :
    (∀ n i, emojiLabel ⟨some n, some i⟩ = n ++ ":" ++ i) ∧
    (∀ n, emojiLabel ⟨some n, none⟩ = n) ∧
    emojiLabel ⟨none, none⟩ = "unknown" ∧
    (∀ (includeIds : Bool) (u : User), ∃ rest,
      addLine includeIds (emojiLabel ⟨some "partyblob", some "999"⟩) u
        = "partyblob:999," ++ rest) := by
  refine ⟨fun n i => rfl, fun n => rfl, rfl, ?_⟩
  intro includeIds u
  have hlab : emojiLabel ⟨some "partyblob", some "999"⟩ ++ "," = "partyblob:999," := by decide
  cases includeIds with
  | false =>
    refine ⟨u.username ++ "#" ++ u.discriminator ++ "\n", ?_⟩
    show emojiLabel ⟨some "partyblob", some "999"⟩ ++ ","
        ++ (u.username ++ "#" ++ u.discriminator) ++ "\n" = _
    rw [hlab]
    simp [String.append_assoc]
  | true =>
    refine ⟨u.username ++ "#" ++ u.discriminator ++ "," ++ u.id ++ "\n", ?_⟩
    show emojiLabel ⟨some "partyblob", some "999"⟩ ++ ","
        ++ (u.username ++ "#" ++ u.discriminator) ++ "," ++ u.id ++ "\n" = _
    rw [hlab]
    simp [String.append_assoc]

/-! ### Helper lemmas about pagination and the export loop -/

theorem dropWhile_ne_id (x : User) :
    ∀ pre post : List User, (∀ u ∈ pre, u.id ≠ x.id) →
      (pre ++ x :: post).dropWhile (fun u => u.id ≠ x.id) = x :: post
  | [], post, _ => by simp [List.dropWhile_cons]
  | c :: cs, post, h => by
    have hc : c.id ≠ x.id := h c (by simp)
    have ih := dropWhile_ne_id x cs post (fun u hu => h u (by simp [hu]))
    rw [List.cons_append, List.dropWhile_cons, if_pos (decide_eq_true hc)]
    exact ih

theorem mem_left_ne_id (us pre post : List User) (x : User)
    (h : us = pre ++ x :: post) (hnd : (us.map User.id).Nodup) :
    ∀ u ∈ pre, u.id ≠ x.id := by
  subst h
  intro u hu he
  have hmap : (pre ++ x :: post).map User.id
      = pre.map User.id ++ (x.id :: post.map User.id) := by simp
  rw [hmap] at hnd
  have hd := List.disjoint_of_nodup_append hnd
  exact hd (List.mem_map_of_mem User.id hu) (by simp [he])

theorem fetchUsersPage_at (us pre rest : List User) (h : us = pre ++ rest)
    (hnd : (us.map User.id).Nodup) :
    fetchUsersPage us (pre.getLast?.map User.id) = rest.take 100 := by
  rcases List.eq_nil_or_concat pre with hpre | ⟨L, x, hpre⟩
  · subst hpre
    simp only [List.nil_append] at h
    subst h
    rfl
  · subst hpre
    rw [List.concat_eq_append] at h ⊢
    rw [List.getLast?_concat]
    have hshape : us = L ++ x :: rest := by rw [h]; simp
    have hne := mem_left_ne_id us L rest x hshape hnd
    show (((us.dropWhile (fun u => u.id ≠ x.id)).drop 1).take 100) = rest.take 100
    rw [hshape, dropWhile_ne_id x L rest hne]
    simp

theorem paginateG_pure :
    ∀ (fuel : Nat) (r : Reaction) (pre rest : List User), r.users = pre ++ rest →
      (r.users.map User.id).Nodup → rest.length < 100 * fuel →
      ∃ bs, paginateG (pureFetch r) (pre.getLast?.map User.id) fuel = .ok bs ∧
        bs.flatten = rest
  | 0, _, _, rest, _, _, hlen => absurd hlen (by omega)
  | fuel + 1, r, pre, rest, h, hnd, hlen => by
    have hfetch : fetchUsersPage r.users (pre.getLast?.map User.id) = rest.take 100 :=
      fetchUsersPage_at r.users pre rest h hnd
    by_cases hsmall : rest.length < 100
    · refine ⟨[rest], ?_, by simp⟩
      have htake : rest.take 100 = rest := List.take_of_length_le (by omega)
      simp [paginateG, pureFetch, hfetch, htake, hsmall]
    · push_neg at hsmall
      have hlen100 : (rest.take 100).length = 100 := by
        rw [List.length_take]; omega
      obtain ⟨bs, hbs, hflat⟩ := paginateG_pure fuel r (pre ++ rest.take 100) (rest.drop 100)
        (by rw [h]; simp) hnd (by rw [List.length_drop]; omega)
      refine ⟨rest.take 100 :: bs, ?_, by simp [hflat]⟩
      have hcur : ((pre ++ rest.take 100).getLast?).map User.id
          = ((rest.take 100).getLast?).map User.id := by
        rw [List.getLast?_append_of_ne_nil]
        intro hnil
        rw [hnil] at hlen100
        simp at hlen100
      rw [hcur] at hbs
      simp [paginateG, pureFetch, hfetch, hlen100, hbs]

theorem foldl_append_start (l : List String) :
    ∀ a : String, l.foldl (· ++ ·) a = a ++ l.foldl (· ++ ·) "" := by
  induction l with
  | nil => intro a; simp [String.append_empty]
  | cons x xs ih =>
    intro a
    show xs.foldl (· ++ ·) (a ++ x) = a ++ xs.foldl (· ++ ·) ("" ++ x)
    rw [ih (a ++ x), ih ("" ++ x), String.empty_append, String.append_assoc]

theorem join_cons (s : String) (l : List String) :
    String.join (s :: l) = s ++ String.join l := by
  show l.foldl (· ++ ·) ("" ++ s) = s ++ l.foldl (· ++ ·) ""
  rw [String.empty_append, foldl_append_start]

theorem exportLoop_allEmpty (fuel : Nat) (includeIds : Bool) (hfuel : 1 ≤ fuel) :
    ∀ (rs : List Reaction) (csv : String), (∀ r ∈ rs, r.users = []) →
      exportLoop pureFetch fuel includeIds rs csv = .ok csv
  | [], csv, _ => rfl
  | r :: rs, csv, h => by
    obtain ⟨f, rfl⟩ : ∃ f, fuel = f + 1 := ⟨fuel - 1, by omega⟩
    have hr : r.users = [] := h r (by simp)
    have hpag : paginateG (pureFetch r) none (f + 1) = .ok [[]] := by
      simp [paginateG, pureFetch, fetchUsersPage, hr]
    have ih := exportLoop_allEmpty (f + 1) includeIds hfuel rs
      (csv ++ groupRows includeIds (emojiLabel r.emoji) ([[] ].flatten : List User))
      (fun r hr => h r (by simp [hr]))
    simp only [exportLoop, hpag] at ih ⊢
    rw [ih]
    simp [groupRows, String.join, String.append_empty]

/-! ### Claim theorems about pagination and the export -/

/-- C10: the per-group pagination loop terminates under the precondition of
the claim, here instantiated concretely: the user set of the group is a finite
list with pairwise-distinct IDs, and each fetch with cursor `after: lastId`
returns only (up to 100 of) the users strictly after `lastId` in collection
order (`fetchUsersPage`).  With any fuel bound exceeding `length / 100`
iterations the loop does not run out of fuel but returns the full batched
collection — each iteration either ends the loop with a short page or
advances the cursor past 100 more users. -/
theorem paginateG_terminates (r : Reaction) (fuel : Nat)
    (hnd : (r.users.map User.id).Nodup) (hlen : r.users.length < 100 * fuel) :
    ∃ bs, paginateG (pureFetch r) none fuel = .ok bs ∧ bs.flatten = r.users :=
  paginateG_pure fuel r [] r.users rfl hnd hlen

/-- Witness for C10: the 🎉 group with two reactors paginates to completion
within one iteration. -/
theorem paginateG_terminates_witness :
    ∃ bs, paginateG (pureFetch partyReaction) none 1 = .ok bs ∧
      bs.flatten = partyReaction.users :=
  paginateG_terminates partyReaction 1 (by decide) (by decide)

/-- C1: for a reaction group of exactly 150 distinct users, the pagination
calls the user-page fetch exactly twice — the batches are exactly the first
100 users and then the remaining 50 — and the export appends exactly 150
data rows to the CSV buffer, every row starting with the emoji label of the
group. -/
theorem export_150 (r : Reaction) (includeIds : Bool) (fuel : Nat) (hf : 2 ≤ fuel)
    (hlen : r.users.length = 150) (hnd : (r.users.map User.id).Nodup) :
    paginateG (pureFetch r) none fuel = .ok [r.users.take 100, r.users.drop 100] ∧
    (r.users.take 100).length = 100 ∧
    (r.users.drop 100).length = 50 ∧
    exportLoop pureFetch fuel includeIds [r] (header includeIds)
      = .ok (header includeIds ++ groupRows includeIds (emojiLabel r.emoji) r.users) ∧
    (r.users.map (addLine includeIds (emojiLabel r.emoji))).length = 150 ∧
    (∀ row ∈ r.users.map (addLine includeIds (emojiLabel r.emoji)),
      ∃ rest, row = emojiLabel r.emoji ++ "," ++ rest) := by
  obtain ⟨f, rfl⟩ : ∃ f, fuel = f + 2 := ⟨fuel - 2, by omega⟩
  have hlen1 : (r.users.take 100).length = 100 := by
    rw [List.length_take]; omega
  have hlen2 : (r.users.drop 100).length = 50 := by
    rw [List.length_drop]; omega
  have h2 : fetchUsersPage r.users (((r.users.take 100).getLast?).map User.id)
      = r.users.drop 100 := by
    rw [fetchUsersPage_at r.users (r.users.take 100) (r.users.drop 100) (by simp) hnd]
    exact List.take_of_length_le (by omega)
  have h1 : fetchUsersPage r.users none = r.users.take 100 := rfl
  have hpag : paginateG (pureFetch r) none (f + 2) = .ok [r.users.take 100, r.users.drop 100] := by
    show paginateG (pureFetch r) none (f + 1 + 1) = _
    simp [paginateG, pureFetch, h1, h2, hlen1, hlen2]
  refine ⟨hpag, hlen1, hlen2, ?_, by simp [hlen], ?_⟩
  · simp [exportLoop, hpag, groupRows]
  · intro row hrow
    obtain ⟨u, _, rfl⟩ := List.mem_map.mp hrow
    cases includeIds with
    | false =>
      refine ⟨u.username ++ "#" ++ u.discriminator ++ "\n", ?_⟩
      show emojiLabel r.emoji ++ "," ++ (u.username ++ "#" ++ u.discriminator) ++ "\n" = _
      simp [String.append_assoc]
    | true =>
      refine ⟨u.username ++ "#" ++ u.discriminator ++ "," ++ u.id ++ "\n", ?_⟩
      show emojiLabel r.emoji ++ "," ++ (u.username ++ "#" ++ u.discriminator)
          ++ "," ++ u.id ++ "\n" = _
      simp [String.append_assoc]

set_option maxRecDepth 40000 in
/-- Witness for C1: the 150-user group is fetched as one page of 100 and one
page of 50. -/
theorem export_150_witness :
    paginateG (pureFetch r150) none 2 = .ok [users150.take 100, users150.drop 100] ∧
    (users150.map (addLine true (emojiLabel r150.emoji))).length = 150 := by
  have h := export_150 r150 true 2 (by omega) (by decide) (by decide)
  exact ⟨h.1, h.2.2.2.2.1⟩

/-- C8: rows of distinct reaction groups are never interleaved.  For any
list of reaction groups whose paginations complete, the final CSV buffer is
the initial buffer followed by the row blocks of the groups in order —
every row of an earlier group precedes every row of a later group, and each
block `groupRows` carries only the emoji label of its own group. -/
theorem export_grouped (rs : List Reaction) (includeIds : Bool) (fuel : Nat) (init : String)
    (h : ∀ r ∈ rs, (r.users.map User.id).Nodup ∧ r.users.length < 100 * fuel) :
    exportLoop pureFetch fuel includeIds rs init
      = .ok (init ++ String.join (rs.map (fun r =>
          groupRows includeIds (emojiLabel r.emoji) r.users))) := by
  induction rs generalizing init with
  | nil => simp [exportLoop, String.join, String.append_empty]
  | cons r rs ih =>
    obtain ⟨hnd, hlen⟩ := h r (by simp)
    obtain ⟨bs, hbs, hflat⟩ := paginateG_pure fuel r [] r.users rfl hnd hlen
    have hbs' : paginateG (pureFetch r) none fuel = .ok bs := hbs
    simp only [exportLoop, hbs', hflat]
    rw [ih _ (fun r hr => h r (List.mem_cons_of_mem _ hr))]
    rw [List.map_cons, join_cons, ← String.append_assoc]

/-- Witness for C8: with the 🎉 group (2 reactors) before the 👍 group
(3 reactors), the CSV body is the 🎉 block followed by the 👍 block. -/
theorem export_grouped_witness :
    exportLoop pureFetch 1 true [partyReaction, thumbsReaction] (header true)
      = .ok (header true ++ String.join ([partyReaction, thumbsReaction].map (fun r =>
          groupRows true (emojiLabel r.emoji) r.users))) :=
  export_grouped [partyReaction, thumbsReaction] true 1 (header true) (by decide)

/-- C7: when every reaction group of the fetched message is empty (in
particular when it has no reaction groups at all), the final reply of the handler
is the no-reactions informational message — never a file attachment. -/
theorem no_reactions_reply (cache : List String)
    (fetchMessage : String → String → Except Unit Msg)
    (fuel : Nat) (i : Interaction) (ch : String) (msg : Msg)
    (hg : i.inGuild = true) (hch : i.channelOpt = some ch)
    (hm : fetchMessage ch (parseMessageRef i.message).messageId = .ok msg)
    (hempty : ∀ r ∈ msg.reactions, r.users = []) (hfuel : 1 ≤ fuel) :
    handleInteraction cache fetchMessage pureFetch fuel i
      = .reply (.edited noReactionsMsg) := by
  have hexp := exportLoop_allEmpty fuel (i.includeUserIds.getD true) hfuel msg.reactions
    (header (i.includeUserIds.getD true)) hempty
  simp [handleInteraction, hg, hch, hm, hexp]

/-- Witness for C7: a message whose single 🎉 group has no reactors yields
the no-reactions reply. -/
theorem no_reactions_reply_witness :
    handleInteraction [] (fun _ _ => .ok { reactions := [{ emoji := { name := some "🎉", id := none }, users := [] }] })
      pureFetch 1 { inGuild := true, message := "1", channelOpt := some "c", includeUserIds := none }
      = .reply (.edited noReactionsMsg) :=
  no_reactions_reply [] _ 1 _ "c" _ rfl rfl rfl (by decide) (by omega)

/-- C2: whenever a user-page fetch throws during pagination (the export
try-block ends in the catch branch, `exportLoop` yielding `.err`), the
handler replies with the reaction-fetch-failed message and no CSV file
attachment is ever sent — rows accumulated from pages fetched before the
error are discarded, never returned to the user. -/
theorem fetch_error_reply (cache : List String)
    (fetchMessage : String → String → Except Unit Msg)
    (fetchUsers : Reaction → Option String → Except Unit (List User))
    (fuel : Nat) (i : Interaction) (ch : String) (msg : Msg)
    (hg : i.inGuild = true) (hch : i.channelOpt = some ch)
    (hm : fetchMessage ch (parseMessageRef i.message).messageId = .ok msg)
    (herr : exportLoop fetchUsers fuel (i.includeUserIds.getD true) msg.reactions
        (header (i.includeUserIds.getD true)) = .err) :
    handleInteraction cache fetchMessage fetchUsers fuel i
      = .reply (.edited reactionFetchFailedMsg) ∧
    ∀ c f b, handleInteraction cache fetchMessage fetchUsers fuel i
      ≠ .reply (.file c f b) := by
  have h1 : handleInteraction cache fetchMessage fetchUsers fuel i
      = .reply (.edited reactionFetchFailedMsg) := by
    simp [handleInteraction, hg, hch, hm, herr]
  refine ⟨h1, fun c f b hcon => ?_⟩
  rw [h1] at hcon
  simp [reactionFetchFailedMsg] at hcon

/-- Witness for C2: an always-throwing user fetch on a message with one
reaction group produces the reaction-fetch-failed reply. -/
theorem fetch_error_reply_witness :
    handleInteraction [] (fun _ _ => .ok { reactions := [partyReaction] })
      (fun _ _ => .error ()) 1
      { inGuild := true, message := "1", channelOpt := some "c", includeUserIds := none }
      = .reply (.edited reactionFetchFailedMsg) :=
  (fetch_error_reply [] (fun _ _ => .ok { reactions := [partyReaction] })
    (fun _ _ => .error ()) 1
    { inGuild := true, message := "1", channelOpt := some "c", includeUserIds := none }
    "c" { reactions := [partyReaction] } rfl rfl rfl rfl).1

/-- C4: when the channel option is absent and the parsed message reference
carries no channel ID, the handler replies with the missing-channel-context
error; the universal quantification over `fetchMessage` expresses that the
message-fetch collaborator is never consulted. -/
theorem missing_channel_reply (cache : List String)
    (fetchMessage : String → String → Except Unit Msg)
    (fetchUsers : Reaction → Option String → Except Unit (List User))
    (fuel : Nat) (i : Interaction)
    (hg : i.inGuild = true) (hch : i.channelOpt = none)
    (href : (parseMessageRef i.message).channelId = none) :
    handleInteraction cache fetchMessage fetchUsers fuel i
      = .reply (.edited missingChannelMsg) := by
  simp [handleInteraction, hg, hch, href]

/-- Witness for C4: a bare-ID invocation without a channel option gets the
missing-channel reply, whatever the collaborators would have answered. -/
theorem missing_channel_reply_witness :
    handleInteraction [] (fun _ _ => .ok { reactions := [partyReaction] })
      pureFetch 1 { inGuild := true, message := "12345", channelOpt := none, includeUserIds := none }
      = .reply (.edited missingChannelMsg) :=
  missing_channel_reply [] _ pureFetch 1 _ rfl rfl (by decide)
